import Mathlib

/-!
Verification of the budget-pacing engine of `budget-pacer.js`
(Google Ads MCC monthly budget pacer).

The engine is pure arithmetic over calendar days and numbers.  We embed it
shallowly: JavaScript numbers become `ℚ` (all the engine's formulas are
exact rational arithmetic on the inputs), JavaScript `Date` values used by
the series builder become an unnormalised civil triple (only `getDate()`,
i.e. the day-of-month component, is ever read by the series builder), and
the fields that the source leaves `undefined` until `applyWmaForecast_`
mutates them in (`cumForecastWma`, `projectedEomWmaAtDay`) become
`Option ℚ`.  Array accesses that could hit `undefined` at runtime
(`perDay[idx-1]` in `computeWmaDaily_`) are modelled with `Option`.
-/

set_option linter.unusedVariables false

namespace BudgetPacer

/-- Civil date triple as carried by a JavaScript `Date`:
`month` is 0-based as in JS; `day` is what `getDate()` returns. -/
structure JsDate where
  year : Int
  month : Int
  day : Int
  deriving DecidableEq, Repr

/-- A raw daily spend observation `{date, cost}` as produced by
`getDailySpendThisMonth_`. -/
structure Obs where
  date : JsDate
  cost : ℚ
  deriving DecidableEq, Repr

/-- The month context produced by `monthMeta_` (the `tz`/`first` fields of
the source record are not used by the arithmetic and are omitted). -/
structure MonthCtx where
  y : Int
  m0 : Int
  daysInMonth : Nat
  daysElapsed : Nat
  deriving DecidableEq, Repr

/-- One per-day row as pushed by `buildPerDayRows_`; the two forecast
fields are `none` until `applyWmaForecast_` writes them. -/
structure DayRow where
  date : JsDate
  cost : ℚ
  cumSpend : ℚ
  targetDaily : ℚ
  cumTarget : ℚ
  gap : ℚ
  cumGap : ℚ
  runningPacePct : ℚ
  recDaily : ℚ
  cumForecastWma : Option ℚ
  projectedEomWmaAtDay : Option ℚ
  deriving DecidableEq, Repr

/-- Default row, used only as the `List.getD` fallback in statements. -/
def dayRow0 : DayRow :=
  { date := ⟨0, 0, 0⟩, cost := 0, cumSpend := 0, targetDaily := 0
  , cumTarget := 0, gap := 0, cumGap := 0, runningPacePct := 0
  , recDaily := 0, cumForecastWma := none, projectedEomWmaAtDay := none }

instance : Inhabited DayRow := ⟨dayRow0⟩

/-- `byDay[d]`: the source accumulates `byDay[day] = (byDay[day]||0) +
(daily[i].cost||0)` keyed by `daily[i].date.getDate()`; looking key `d` up
afterwards yields the sum of the costs of observations whose day-of-month
is `d` (`0` if there are none). -/
def dayCost (daily : List Obs) (d : Int) : ℚ :=
  (daily.filter (fun o => o.date.day == d)).foldl (fun a o => a + o.cost) 0

/-- `var targetDaily = mCtx.daysInMonth > 0 ? (monthlyBudget / mCtx.daysInMonth) : 0`. -/
def targetDailyCalc (monthlyBudget : ℚ) (daysInMonth : Nat) : ℚ :=
  if daysInMonth > 0 then monthlyBudget / (daysInMonth : ℚ) else 0

/-- The body of the `for (d=1..daysInMonth)` loop of `buildPerDayRows_`:
the row pushed for day `d` once `cumSpend` has been updated to `cum`. -/
def mkRow (daily : List Obs) (monthlyBudget : ℚ) (ctx : MonthCtx)
    (targetDaily : ℚ) (d : Nat) (cum : ℚ) : DayRow :=
  { date := ⟨ctx.y, ctx.m0, (d : Int)⟩
  , cost := dayCost daily (d : Int)
  , cumSpend := cum
  , targetDaily := targetDaily
  , cumTarget := targetDaily * (d : ℚ)
  , gap := dayCost daily (d : Int) - targetDaily
  , cumGap := cum - targetDaily * (d : ℚ)
  , runningPacePct := if monthlyBudget > 0 then cum / monthlyBudget else 0
  , recDaily :=
      if (ctx.daysInMonth : Int) - (d : Int) > 0 then
        max ((monthlyBudget - cum) / ((ctx.daysInMonth : ℚ) - (d : ℚ))) 0
      else 0
  , cumForecastWma := none
  , projectedEomWmaAtDay := none }

/-- The `for (d=1..daysInMonth)` loop of `buildPerDayRows_` rendered as a
fuelled recursion: `r` counts the days still to emit, `d` is the current
day and `cum` the `cumSpend` accumulator entering the iteration. -/
def rowsFrom (daily : List Obs) (monthlyBudget : ℚ) (ctx : MonthCtx)
    (targetDaily : ℚ) : Nat → Nat → ℚ → List DayRow
  | _, 0, _ => []
  | d, r + 1, cum =>
    let cum' := cum + dayCost daily (d : Int)
    mkRow daily monthlyBudget ctx targetDaily d cum' ::
      rowsFrom daily monthlyBudget ctx targetDaily (d + 1) r cum'

/-- `buildPerDayRows_(daily, monthlyBudget, mCtx)` from the source:
group observations by day-of-month, then emit one row per day
`1..daysInMonth` with the running accumulator starting at `0`. -/
def buildPerDayRows_ (daily : List Obs) (monthlyBudget : ℚ)
    (ctx : MonthCtx) : List DayRow :=
  rowsFrom daily monthlyBudget ctx
    (targetDailyCalc monthlyBudget ctx.daysInMonth) 1 ctx.daysInMonth 0

/-- Day-by-day cost sums: `sumCosts daily d k` is the total cost of days
`d, d+1, …, d+k-1`. -/
def sumCosts (daily : List Obs) : Nat → Nat → ℚ
  | _, 0 => 0
  | d, k + 1 => dayCost daily (d : Int) + sumCosts daily (d + 1) k

/-- The `for (i=0; i<n; i++)` loop of `computeWmaDaily_`.  The fuel counts
the iterations left (`n - i`); `i` is the loop counter; `sumW`/`sumWX` the
accumulators.  `perDay[idx-1]` on an out-of-range index would dereference
`undefined` and throw in JavaScript, which we model as `none`; the
`if (idx <= 0) break` of the source is the first branch. -/
def wmaLoop (perDay : List DayRow) (daysElapsed n : Int) :
    Nat → Nat → ℚ → ℚ → Option (ℚ × ℚ)
  | 0, _, sumW, sumWX => some (sumW, sumWX)
  | fuel + 1, i, sumW, sumWX =>
    let idx : Int := daysElapsed - (i : Int)
    if idx ≤ 0 then some (sumW, sumWX)
    else
      (perDay[(idx - 1).toNat]?).bind fun row =>
        let w : ℚ := ((n - (i : Int) : Int) : ℚ)
        wmaLoop perDay daysElapsed n fuel (i + 1) (sumW + w) (sumWX + w * row.cost)

/-- `computeWmaDaily_(perDay, daysElapsed, window)`:
`n = min(window, max(daysElapsed, 0))`; return `0` when `n ≤ 0`, otherwise
run the weighted loop and return `sumW ? sumWX/sumW : 0`. -/
def computeWmaDaily_ (perDay : List DayRow) (daysElapsed window : Int) :
    Option ℚ :=
  let n := min window (max daysElapsed 0)
  if n ≤ 0 then some 0
  else
    (wmaLoop perDay daysElapsed n n.toNat 0 0 0).map
      (fun p => if p.1 ≠ 0 then p.2 / p.1 else 0)

/-- The body of the `for (d=1..perDay.length)` loop of `applyWmaForecast_`:
the two assignments performed on the row of day `d`. -/
def forecastRow (ctx : MonthCtx) (spendMtd wmaDaily : ℚ) (d : Nat)
    (row : DayRow) : DayRow :=
  { row with
    cumForecastWma :=
      some (if (d : Int) ≤ (ctx.daysElapsed : Int) then row.cumSpend
            else spendMtd + wmaDaily * ((d : ℚ) - (ctx.daysElapsed : ℚ)))
    , projectedEomWmaAtDay :=
      some (row.cumSpend + wmaDaily * ((ctx.daysInMonth : ℚ) - (d : ℚ))) }

/-- The `for (d=1..perDay.length)` loop of `applyWmaForecast_`: `d` is the
1-based day of the head row. -/
def applyWmaGo (ctx : MonthCtx) (spendMtd wmaDaily : ℚ) :
    Nat → List DayRow → List DayRow
  | _, [] => []
  | d, row :: rest =>
    forecastRow ctx spendMtd wmaDaily d row ::
      applyWmaGo ctx spendMtd wmaDaily (d + 1) rest

/-- `applyWmaForecast_(perDay, mCtx, spendMtd, wmaDaily)`: writes the two
forecast fields onto every row (the source mutates in place and returns the
same array; the embedding returns the updated list). -/
def applyWmaForecast_ (perDay : List DayRow) (ctx : MonthCtx)
    (spendMtd wmaDaily : ℚ) : List DayRow :=
  applyWmaGo ctx spendMtd wmaDaily 1 perDay

/-! ### Once-per-month account-level outputs

These formulas appear identically in `main` (overview row) and in
`writeAccountSheet_` (account tab KPIs); we translate them once. -/

/-- `targetToDate = budgetCap * (mCtx.daysElapsed / mCtx.daysInMonth)`. -/
def targetSpendToDate (monthlyBudget : ℚ) (ctx : MonthCtx) : ℚ :=
  monthlyBudget * ((ctx.daysElapsed : ℚ) / (ctx.daysInMonth : ℚ))

/-- `paceVsTarget = spendMtd - targetToDate`. -/
def paceVsTarget (monthlyBudget spendMtd : ℚ) (ctx : MonthCtx) : ℚ :=
  spendMtd - targetSpendToDate monthlyBudget ctx

/-- `pctBudgetSpent = budgetCap > 0 ? (spendMtd / budgetCap) : 0`. -/
def pctBudgetSpent (monthlyBudget spendMtd : ℚ) : ℚ :=
  if monthlyBudget > 0 then spendMtd / monthlyBudget else 0

/-- `remainingDays = Math.max(mCtx.daysInMonth - mCtx.daysElapsed, 0)`. -/
def remainingDays (ctx : MonthCtx) : Int :=
  max ((ctx.daysInMonth : Int) - (ctx.daysElapsed : Int)) 0

/-- `projectedEom = spendMtd + wmaDaily * remainingDays`. -/
def projectedEomSpend (spendMtd wmaDaily : ℚ) (ctx : MonthCtx) : ℚ :=
  spendMtd + wmaDaily * ((remainingDays ctx : Int) : ℚ)

/-- `recDaily = remainingDays > 0 ? Math.max((budgetCap - spendMtd) / remainingDays, 0) : 0`. -/
def recommendedDailySpend (monthlyBudget spendMtd : ℚ) (ctx : MonthCtx) : ℚ :=
  if remainingDays ctx > 0 then
    max ((monthlyBudget - spendMtd) / ((remainingDays ctx : Int) : ℚ)) 0
  else 0

/-- `paceDeltaPct = targetToDate > 0 ? (spendMtd / targetToDate) - 1 : 0`. -/
def paceDeltaPct (monthlyBudget spendMtd : ℚ) (ctx : MonthCtx) : ℚ :=
  if targetSpendToDate monthlyBudget ctx > 0 then
    spendMtd / targetSpendToDate monthlyBudget ctx - 1
  else 0

/-! ### `monthMeta_` and the calendar model

`monthMeta_` builds `new Date(y, m0+1, 1)` and subtracts 24 hours; the
resulting civil date is the last day of month `m0`.  We model JavaScript
`Date` arithmetic at the civil level: the Gregorian month-length table
(`daysInGregMonth`, with the standard leap-year rule JavaScript dates obey)
and one-day subtraction (`minusOneDay`, rolling back into the previous
month from day 1). -/

/-- Gregorian leap year, as JavaScript `Date` implements it. -/
def isLeap (y : Int) : Bool :=
  (y % 4 == 0 && y % 100 != 0) || y % 400 == 0

/-- True Gregorian length of month `m0` (0-based) of year `y`, for
`0 ≤ m0 ≤ 11`. -/
def daysInGregMonth (y m0 : Int) : Int :=
  if m0 = 1 then (if isLeap y then 29 else 28)
  else if m0 = 3 ∨ m0 = 5 ∨ m0 = 8 ∨ m0 = 10 then 30
  else 31

/-- Subtracting `24*60*60*1000` ms from the midnight of a civil date,
read back as a civil date (the model of `new Date(next.getTime() - 24*60*60*1000)`
for the dates `monthMeta_` uses). -/
def minusOneDay : JsDate → JsDate
  | ⟨y, m, d⟩ =>
    if d ≥ 2 then ⟨y, m, d - 1⟩
    else if m = 0 then ⟨y - 1, 11, daysInGregMonth (y - 1) 11⟩
    else ⟨y, m - 1, daysInGregMonth y (m - 1)⟩

/-- `monthMeta_(today, tz)`.  The input is abstracted as the civil triple
`(y, m0, day)` that `Utilities.formatDate` extracts from `today` in `tz`
(`m0` 0-based).  `new Date(y, m0+1, 1)` normalises month 12 to January of
the next year; `end` is one day earlier; `daysElapsed` is the day-of-month
clamped to `daysInMonth`. -/
def monthMeta_ (y m0 day : Int) : MonthCtx :=
  let next : JsDate := if m0 = 11 then ⟨y + 1, 0, 1⟩ else ⟨y, m0 + 1, 1⟩
  let endD := minusOneDay next
  let daysInMonth := endD.day
  let daysElapsed := min day daysInMonth
  { y := y, m0 := m0, daysInMonth := daysInMonth.toNat
  , daysElapsed := daysElapsed.toNat }

/-! ### `trendLabel_` -/

/-- JavaScript `Math.round`: round half toward positive infinity,
`⌊x + 1/2⌋`. -/
def jsRound (x : ℚ) : Int := ⌊x + 1 / 2⌋

/-- `trendLabel_(paceDeltaPct)` from the source. -/
def trendLabel_ (p : ℚ) : String :=
  let a := |p|
  let pct := jsRound (a * 100)
  if a ≤ 1 / 20 then "On Target"
  else if p < 0 then "Under " ++ toString pct ++ "%"
  else "Over " ++ toString pct ++ "%"

/-! ### Spec-side abbreviations used by the theorem statements -/

/-- The cost of the row for (1-based) day `k`: `perDay[k-1].cost`. -/
def costAt (perDay : List DayRow) (k : Int) : ℚ :=
  (perDay.getD (k - 1).toNat dayRow0).cost

/-- The WMA weight attached to offset `i` (newest day is offset `0` and
gets weight `n`): `n - i`. -/
def wWeight (n : Int) (i : Nat) : ℚ := ((n - (i : Int) : Int) : ℚ)

/-- One WMA numerator term: weight times the cost of the day at offset `i`
back from `daysElapsed`. -/
def wTerm (perDay : List DayRow) (daysElapsed n : Int) (i : Nat) : ℚ :=
  wWeight n i * costAt perDay (daysElapsed - (i : Int))

/-! ### Helper lemmas about the series builder -/

theorem foldl_add_cost (l : List Obs) (a : ℚ) :
    l.foldl (fun x o => x + o.cost) a = a + (l.map Obs.cost).sum := by
  induction l generalizing a with
  | nil => simp
  | cons o l ih => simp [ih, add_assoc]

theorem dayCost_eq_sum (daily : List Obs) (d : Int) :
    dayCost daily d =
      ((daily.filter (fun o => o.date.day == d)).map Obs.cost).sum := by
  simp [dayCost, foldl_add_cost]

theorem sumCosts_succ_right (daily : List Obs) :
    ∀ (k d : Nat),
      sumCosts daily d (k + 1) = sumCosts daily d k + dayCost daily ((d + k : Nat) : Int) := by
  intro k
  induction k with
  | zero => intro d; simp [sumCosts]
  | succ k ih =>
    intro d
    have lhs : sumCosts daily d (k + 1 + 1)
        = dayCost daily (d : Int) + sumCosts daily (d + 1) (k + 1) := rfl
    have rhs : sumCosts daily d (k + 1)
        = dayCost daily (d : Int) + sumCosts daily (d + 1) k := rfl
    have harg : ((d + (1 + k) : Nat) : Int) = ((d + (k + 1) : Nat) : Int) := by
      omega
    rw [lhs, ih (d + 1), rhs, add_assoc, harg]
    ring

theorem sumCosts_eq_rangeSum (daily : List Obs) (d : Nat) :
    ∀ k : Nat,
      sumCosts daily d k =
        ((List.range k).map (fun i => dayCost daily ((d + i : Nat) : Int))).sum := by
  intro k
  induction k with
  | zero => simp [sumCosts]
  | succ k ih =>
    rw [sumCosts_succ_right, List.range_succ, List.map_append, List.sum_append, ih]
    simp

theorem rowsFrom_eq (daily : List Obs) (B : ℚ) (ctx : MonthCtx) (t : ℚ) :
    ∀ (r d : Nat) (cum : ℚ),
      rowsFrom daily B ctx t d r cum =
        (List.range r).map
          (fun i => mkRow daily B ctx t (d + i) (cum + sumCosts daily d (i + 1))) := by
  intro r
  induction r with
  | zero => intro d cum; simp [rowsFrom]
  | succ r ih =>
    intro d cum
    rw [List.range_succ_eq_map, List.map_cons, List.map_map]
    show rowsFrom daily B ctx t d (r + 1) cum = _
    rw [rowsFrom]
    congr 1
    · simp [sumCosts]
    · rw [ih (d + 1) (cum + dayCost daily (d : Int))]
      apply List.map_congr_left
      intro i hi
      simp only [Function.comp]
      have h1 : d + 1 + i = d + (i + 1) := by omega
      have h2 : cum + dayCost daily (d : Int) + sumCosts daily (d + 1) (i + 1)
          = cum + sumCosts daily d (i + 1 + 1) := by
        rw [show sumCosts daily d (i + 1 + 1)
              = dayCost daily (d : Int) + sumCosts daily (d + 1) (i + 1) from rfl]
        ring
      rw [h1, h2]

theorem buildPerDayRows_eq (daily : List Obs) (B : ℚ) (ctx : MonthCtx) :
    buildPerDayRows_ daily B ctx =
      (List.range ctx.daysInMonth).map
        (fun i => mkRow daily B ctx (targetDailyCalc B ctx.daysInMonth)
          (1 + i) (sumCosts daily 1 (i + 1))) := by
  rw [buildPerDayRows_, rowsFrom_eq]
  apply List.map_congr_left
  intro i hi
  rw [zero_add]

theorem buildPerDayRows_length (daily : List Obs) (B : ℚ) (ctx : MonthCtx) :
    (buildPerDayRows_ daily B ctx).length = ctx.daysInMonth := by
  rw [buildPerDayRows_eq]; simp

theorem buildPerDayRows_getD (daily : List Obs) (B : ℚ) (ctx : MonthCtx)
    (i : Nat) (hi : i < ctx.daysInMonth) :
    (buildPerDayRows_ daily B ctx).getD i dayRow0 =
      mkRow daily B ctx (targetDailyCalc B ctx.daysInMonth)
        (1 + i) (sumCosts daily 1 (i + 1)) := by
  rw [buildPerDayRows_eq, List.getD_eq_getElem?_getD, List.getElem?_map,
    List.getElem?_range hi]
  rfl

theorem buildPerDayRows_costSum (daily : List Obs) (B : ℚ) (ctx : MonthCtx) :
    ((buildPerDayRows_ daily B ctx).map DayRow.cost).sum
      = sumCosts daily 1 ctx.daysInMonth := by
  rw [buildPerDayRows_eq, List.map_map, sumCosts_eq_rangeSum]
  rfl

/-- **C1.** `buildPerDayRows_` returns exactly `daysInMonth` rows in
ascending date order (row `d` is calendar day `d` of the context month);
row `d`'s cost is the summed cost of the observations whose day-of-month is
`d`; `cumSpend` is the running prefix sum of the rows' costs (so the last
day's `cumSpend` is the total of all rows' costs); `targetDaily = B / D`;
`cumTarget = targetDaily * d`; `gap = cost - targetDaily`;
`cumGap = cumSpend - cumTarget`; and `recDaily` is
`max((B - cumSpend)/(D - d), 0)` for `d < D` and `0` on the last day. -/
theorem buildPerDayRows_spec (daily : List Obs) (B : ℚ) (ctx : MonthCtx)
    (hB : 0 ≤ B) (hD : 1 ≤ ctx.daysInMonth) :
    (buildPerDayRows_ daily B ctx).length = ctx.daysInMonth ∧
    (∀ d : Nat, 1 ≤ d → d ≤ ctx.daysInMonth →
      ((buildPerDayRows_ daily B ctx).getD (d - 1) dayRow0).date
          = ⟨ctx.y, ctx.m0, (d : Int)⟩ ∧
      ((buildPerDayRows_ daily B ctx).getD (d - 1) dayRow0).cost
          = ((daily.filter (fun o => o.date.day == (d : Int))).map Obs.cost).sum ∧
      ((buildPerDayRows_ daily B ctx).getD (d - 1) dayRow0).cumSpend
          = ((List.range d).map
              (fun k => ((buildPerDayRows_ daily B ctx).getD k dayRow0).cost)).sum ∧
      ((buildPerDayRows_ daily B ctx).getD (d - 1) dayRow0).targetDaily
          = B / (ctx.daysInMonth : ℚ) ∧
      ((buildPerDayRows_ daily B ctx).getD (d - 1) dayRow0).cumTarget
          = ((buildPerDayRows_ daily B ctx).getD (d - 1) dayRow0).targetDaily * (d : ℚ) ∧
      ((buildPerDayRows_ daily B ctx).getD (d - 1) dayRow0).gap
          = ((buildPerDayRows_ daily B ctx).getD (d - 1) dayRow0).cost
            - ((buildPerDayRows_ daily B ctx).getD (d - 1) dayRow0).targetDaily ∧
      ((buildPerDayRows_ daily B ctx).getD (d - 1) dayRow0).cumGap
          = ((buildPerDayRows_ daily B ctx).getD (d - 1) dayRow0).cumSpend
            - ((buildPerDayRows_ daily B ctx).getD (d - 1) dayRow0).cumTarget ∧
      (d < ctx.daysInMonth →
        ((buildPerDayRows_ daily B ctx).getD (d - 1) dayRow0).recDaily
          = max ((B - ((buildPerDayRows_ daily B ctx).getD (d - 1) dayRow0).cumSpend)
                  / ((ctx.daysInMonth : ℚ) - (d : ℚ))) 0) ∧
      (d = ctx.daysInMonth →
        ((buildPerDayRows_ daily B ctx).getD (d - 1) dayRow0).recDaily = 0)) ∧
    ((buildPerDayRows_ daily B ctx).getD (ctx.daysInMonth - 1) dayRow0).cumSpend
      = ((buildPerDayRows_ daily B ctx).map DayRow.cost).sum := by
  refine ⟨buildPerDayRows_length daily B ctx, ?_, ?_⟩
  · intro d hd1 hd2
    have hi : d - 1 < ctx.daysInMonth := by omega
    have e1 : 1 + (d - 1) = d := by omega
    have e2 : d - 1 + 1 = d := by omega
    have hrow := buildPerDayRows_getD daily B ctx (d - 1) hi
    rw [e1, e2] at hrow
    rw [hrow]
    refine ⟨rfl, ?_, ?_, ?_, rfl, rfl, rfl, ?_, ?_⟩
    · simp [mkRow, dayCost_eq_sum]
    · show sumCosts daily 1 d = _
      have hcong : ∀ k ∈ List.range d,
          ((buildPerDayRows_ daily B ctx).getD k dayRow0).cost
            = dayCost daily ((1 + k : Nat) : Int) := by
        intro k hk
        have hkD : k < ctx.daysInMonth := by
          have := List.mem_range.mp hk; omega
        rw [buildPerDayRows_getD daily B ctx k hkD]
        rfl
      rw [List.map_congr_left hcong, ← sumCosts_eq_rangeSum]
    · show targetDailyCalc B ctx.daysInMonth = _
      rw [targetDailyCalc, if_pos (by omega)]
    · intro hlt
      show (if (ctx.daysInMonth : Int) - (d : Int) > 0 then _ else _) = _
      rw [if_pos (by omega)]
      rfl
    · intro heq
      show (if (ctx.daysInMonth : Int) - (d : Int) > 0 then _ else _) = _
      rw [if_neg (by omega)]
  · have hi : ctx.daysInMonth - 1 < ctx.daysInMonth := by omega
    have e2 : ctx.daysInMonth - 1 + 1 = ctx.daysInMonth := by omega
    have hrow := buildPerDayRows_getD daily B ctx (ctx.daysInMonth - 1) hi
    rw [e2] at hrow
    rw [hrow, buildPerDayRows_costSum]
    rfl

/-- Witness for `buildPerDayRows_spec` at a concrete 3-day context. -/
theorem buildPerDayRows_spec_witness :
    (0 : ℚ) ≤ 6 ∧ 1 ≤ (3 : Nat) ∧
      (buildPerDayRows_
        [⟨⟨2025, 8, 1⟩, 2⟩, ⟨⟨2025, 8, 2⟩, 3⟩] 6 ⟨2025, 8, 3, 2⟩).length = 3 :=
  ⟨by norm_num, by norm_num,
    (buildPerDayRows_spec [⟨⟨2025, 8, 1⟩, 2⟩, ⟨⟨2025, 8, 2⟩, 3⟩] 6
      ⟨2025, 8, 3, 2⟩ (by norm_num) (by norm_num)).1⟩

/-! ### Helper lemmas about the WMA loop -/

theorem rangeSum_shift (φ : Nat → ℚ) (f i₀ : Nat) :
    ((List.range (f + 1)).map (fun j => φ (i₀ + j))).sum
      = φ i₀ + ((List.range f).map (fun j => φ (i₀ + 1 + j))).sum := by
  rw [List.range_succ_eq_map, List.map_cons, List.map_map, List.sum_cons]
  have h2 : List.map ((fun j => φ (i₀ + j)) ∘ Nat.succ) (List.range f)
      = List.map (fun j => φ (i₀ + 1 + j)) (List.range f) := by
    apply List.map_congr_left
    intro j hj
    show φ (i₀ + (j + 1)) = φ (i₀ + 1 + j)
    congr 1
    omega
  rw [h2, Nat.add_zero]

theorem wmaLoop_spec (perDay : List DayRow) (dE n : Int)
    (hlen : dE ≤ (perDay.length : Int)) :
    ∀ (f i₀ : Nat) (sW sWX : ℚ), (i₀ : Int) + (f : Int) ≤ dE →
      wmaLoop perDay dE n f i₀ sW sWX =
        some (sW + ((List.range f).map (fun j => wWeight n (i₀ + j))).sum,
              sWX + ((List.range f).map (fun j => wTerm perDay dE n (i₀ + j))).sum) := by
  intro f
  induction f with
  | zero =>
    intro i₀ sW sWX h
    simp [wmaLoop]
  | succ f ih =>
    intro i₀ sW sWX h
    have hipos : ¬ (dE - (i₀ : Int) ≤ 0) := by push_cast at h; omega
    have hidx : (dE - (i₀ : Int) - 1).toNat < perDay.length := by
      push_cast at h; omega
    rw [wmaLoop, if_neg hipos, List.getElem?_eq_getElem hidx]
    show wmaLoop perDay dE n f (i₀ + 1) _ _ = _
    rw [ih (i₀ + 1) _ _ (by push_cast at h ⊢; omega)]
    have hc : costAt perDay (dE - (i₀ : Int))
        = (perDay.get ⟨(dE - (i₀ : Int) - 1).toNat, hidx⟩).cost := by
      rw [costAt, List.getD_eq_getElem?_getD, List.getElem?_eq_getElem hidx]
      rfl
    congr 1
    congr 1
    · rw [rangeSum_shift (fun m => wWeight n m) f i₀]
      show sW + wWeight n i₀ + _ = _
      ring
    · rw [rangeSum_shift (fun m => wTerm perDay dE n m) f i₀]
      show sWX + wWeight n i₀
          * (perDay.get ⟨(dE - (i₀ : Int) - 1).toNat, hidx⟩).cost + _ = _
      rw [wTerm, hc]
      ring

/-- **C2.** `computeWmaDaily_` returns `0` when
`n = min(window, max(daysElapsed, 0)) ≤ 0`, and otherwise the weighted sum
of the costs of the `n` most recent elapsed days (offset `i` back from
`daysElapsed` gets weight `n - i`, so the most recent day has weight `n`
and the oldest weight `1`) divided by the sum of the weights.  The series
must cover the elapsed days (`daysElapsed ≤ perDay.length`); the result is
wrapped in `some` because the embedding models JavaScript array
dereference failures as `none`. -/
theorem computeWmaDaily_spec (perDay : List DayRow) (daysElapsed window : Int)
    (hW : 1 ≤ window) (hlen : daysElapsed ≤ (perDay.length : Int)) :
    (min window (max daysElapsed 0) ≤ 0 →
      computeWmaDaily_ perDay daysElapsed window = some 0) ∧
    (0 < min window (max daysElapsed 0) →
      computeWmaDaily_ perDay daysElapsed window =
        some (((List.range (min window (max daysElapsed 0)).toNat).map
                (wTerm perDay daysElapsed (min window (max daysElapsed 0)))).sum /
              ((List.range (min window (max daysElapsed 0)).toNat).map
                (wWeight (min window (max daysElapsed 0)))).sum)) := by
  constructor
  · intro h
    rw [computeWmaDaily_]
    rw [if_pos h]
  · intro h
    have hnle : (min window (max daysElapsed 0)) ≤ daysElapsed := by
      have h1 : 0 < max daysElapsed 0 := lt_of_lt_of_le h (min_le_right _ _)
      have h2 : max daysElapsed 0 = daysElapsed := by
        rcases le_or_lt daysElapsed 0 with hc | hc
        · exfalso; rw [max_eq_right hc] at h1; omega
        · exact max_eq_left (le_of_lt hc)
      calc min window (max daysElapsed 0) ≤ max daysElapsed 0 := min_le_right _ _
        _ = daysElapsed := h2
    have hbound : ((0 : Nat) : Int)
        + (((min window (max daysElapsed 0)).toNat : Nat) : Int) ≤ daysElapsed := by
      omega
    rw [computeWmaDaily_, if_neg (not_le.mpr h),
      wmaLoop_spec perDay daysElapsed (min window (max daysElapsed 0)) hlen
        (min window (max daysElapsed 0)).toNat 0 0 0 hbound]
    have hmc : ∀ φ : Nat → ℚ, ∀ m : Nat,
        (List.range m).map (fun j => φ (0 + j)) = (List.range m).map φ := by
      intro φ m
      apply List.map_congr_left
      intro j hj
      rw [Nat.zero_add]
    rw [Option.map_some', hmc, hmc]
    have hpos : 0 < ((List.range (min window (max daysElapsed 0)).toNat).map
        (wWeight (min window (max daysElapsed 0)))).sum := by
      apply List.sum_pos
      · intro x hx
        obtain ⟨i, hi, rfl⟩ := List.mem_map.mp hx
        have him : i < (min window (max daysElapsed 0)).toNat := List.mem_range.mp hi
        rw [wWeight]
        have : (0 : Int) < min window (max daysElapsed 0) - (i : Int) := by omega
        exact_mod_cast this
      · have : (min window (max daysElapsed 0)).toNat ≠ 0 := by omega
        simp [this]
    rw [zero_add, zero_add, if_pos (ne_of_gt hpos)]

/-- Witness for `computeWmaDaily_spec`: a 2-day series with costs 100 then
200 and `daysElapsed = 2`, window 7: 2 days are used with weights {2,1}
newest-to-oldest, WMA = (2*200 + 1*100)/3 = 500/3. -/
theorem computeWmaDaily_spec_witness :
    (1 : Int) ≤ 7 ∧
    (2 : Int) ≤ (([{ dayRow0 with cost := 100 }, { dayRow0 with cost := 200 }]
        : List DayRow).length : Int) ∧
    computeWmaDaily_
      [{ dayRow0 with cost := 100 }, { dayRow0 with cost := 200 }] 2 7
      = some (500 / 3) := by
  refine ⟨by norm_num, by norm_num, ?_⟩
  rw [(computeWmaDaily_spec
      [{ dayRow0 with cost := 100 }, { dayRow0 with cost := 200 }] 2 7
      (by norm_num) (by norm_num)).2 (by omega)]
  have hmin : min (7 : Int) (max 2 0) = 2 := by omega
  rw [hmin]
  show some ((List.map _ [0, 1]).sum / (List.map _ [0, 1]).sum) = _
  simp only [List.map_cons, List.map_nil, List.sum_cons, List.sum_nil,
    wTerm, wWeight, costAt]
  norm_num [List.getD]

/-! ### Helper lemmas about the forecast loop -/

theorem applyWmaGo_length (ctx : MonthCtx) (spendMtd wmaDaily : ℚ) :
    ∀ (l : List DayRow) (d : Nat),
      (applyWmaGo ctx spendMtd wmaDaily d l).length = l.length := by
  intro l
  induction l with
  | nil => intro d; rfl
  | cons row rest ih =>
    intro d
    show (forecastRow ctx spendMtd wmaDaily d row ::
      applyWmaGo ctx spendMtd wmaDaily (d + 1) rest).length = _
    rw [List.length_cons, List.length_cons, ih (d + 1)]

theorem applyWmaGo_getD (ctx : MonthCtx) (spendMtd wmaDaily : ℚ) :
    ∀ (l : List DayRow) (d i : Nat), i < l.length →
      (applyWmaGo ctx spendMtd wmaDaily d l).getD i dayRow0
        = forecastRow ctx spendMtd wmaDaily (d + i) (l.getD i dayRow0) := by
  intro l
  induction l with
  | nil => intro d i hi; simp at hi
  | cons row rest ih =>
    intro d i hi
    show (forecastRow ctx spendMtd wmaDaily d row ::
      applyWmaGo ctx spendMtd wmaDaily (d + 1) rest).getD i dayRow0 = _
    cases i with
    | zero => rfl
    | succ i =>
      rw [List.getD_cons_succ, List.getD_cons_succ,
        ih (d + 1) i (by simpa using hi)]
      congr 1
      omega

theorem applyWmaForecast_getD (perDay : List DayRow) (ctx : MonthCtx)
    (spendMtd wmaDaily : ℚ) (i : Nat) (hi : i < perDay.length) :
    (applyWmaForecast_ perDay ctx spendMtd wmaDaily).getD i dayRow0
      = forecastRow ctx spendMtd wmaDaily (1 + i) (perDay.getD i dayRow0) :=
  applyWmaGo_getD ctx spendMtd wmaDaily perDay 1 i hi

/-- **C3.** After `applyWmaForecast_`, for every day `d` of the series:
`cumForecastWma` equals the day's actual `cumSpend` when `d ≤ daysElapsed`
and `spendMtd + wmaDaily * (d - daysElapsed)` when `d > daysElapsed`, and
`projectedEomWmaAtDay` equals `cumSpend + wmaDaily * (daysInMonth - d)` for
every day, past or future. -/
theorem applyWmaForecast_spec (perDay : List DayRow) (ctx : MonthCtx)
    (spendMtd wmaDaily : ℚ) (h1 : 1 ≤ ctx.daysElapsed)
    (h2 : ctx.daysElapsed ≤ ctx.daysInMonth)
    (hlen : perDay.length = ctx.daysInMonth) :
    ∀ d : Nat, 1 ≤ d → d ≤ perDay.length →
      (d ≤ ctx.daysElapsed →
        ((applyWmaForecast_ perDay ctx spendMtd wmaDaily).getD (d - 1) dayRow0).cumForecastWma
          = some ((perDay.getD (d - 1) dayRow0).cumSpend)) ∧
      (ctx.daysElapsed < d →
        ((applyWmaForecast_ perDay ctx spendMtd wmaDaily).getD (d - 1) dayRow0).cumForecastWma
          = some (spendMtd + wmaDaily * ((d : ℚ) - (ctx.daysElapsed : ℚ)))) ∧
      ((applyWmaForecast_ perDay ctx spendMtd wmaDaily).getD (d - 1) dayRow0).projectedEomWmaAtDay
        = some ((perDay.getD (d - 1) dayRow0).cumSpend
            + wmaDaily * ((ctx.daysInMonth : ℚ) - (d : ℚ))) := by
  intro d hd1 hd2
  have hi : d - 1 < perDay.length := by omega
  have hrow := applyWmaForecast_getD perDay ctx spendMtd wmaDaily (d - 1) hi
  have e1 : 1 + (d - 1) = d := by omega
  rw [e1] at hrow
  refine ⟨?_, ?_, ?_⟩
  · intro hle
    rw [hrow]
    show some (if (d : Int) ≤ (ctx.daysElapsed : Int) then _ else _) = _
    rw [if_pos (by omega)]
  · intro hgt
    rw [hrow]
    show some (if (d : Int) ≤ (ctx.daysElapsed : Int) then _ else _) = _
    rw [if_neg (by omega)]
  · rw [hrow]
    rfl

/-- Witness for `applyWmaForecast_spec`: a 2-day month with
`daysElapsed = 1`, `spendMtd = 10`, `wmaDaily = 5`; day 2 is in the future
and its forecast is `10 + 5 * (2 - 1) = 15`. -/
theorem applyWmaForecast_spec_witness :
    (1 : Nat) ≤ (MonthCtx.mk 2025 0 2 1).daysElapsed ∧
    (MonthCtx.mk 2025 0 2 1).daysElapsed ≤ (MonthCtx.mk 2025 0 2 1).daysInMonth ∧
    ([{ dayRow0 with cumSpend := 4 }, { dayRow0 with cumSpend := 9 }]
      : List DayRow).length = (MonthCtx.mk 2025 0 2 1).daysInMonth ∧
    ((applyWmaForecast_
        [{ dayRow0 with cumSpend := 4 }, { dayRow0 with cumSpend := 9 }]
        (MonthCtx.mk 2025 0 2 1) 10 5).getD 1 dayRow0).cumForecastWma
      = some 15 := by
  refine ⟨by norm_num, by norm_num, by norm_num, ?_⟩
  have h := applyWmaForecast_spec
    [{ dayRow0 with cumSpend := 4 }, { dayRow0 with cumSpend := 9 }]
    (MonthCtx.mk 2025 0 2 1) 10 5 (by norm_num) (by norm_num) (by norm_num)
    2 (by norm_num) (by norm_num)
  rw [(h.2.1 (by norm_num) : _ = _)]
  norm_num

/-- **C10.** `applyWmaForecast_` changes no previously-computed field:
length and order are unchanged and every row keeps its `date`, `cost`,
`cumSpend`, `targetDaily`, `cumTarget`, `gap`, `cumGap`, `runningPacePct`
and `recDaily`; only the two forecast fields are written. -/
theorem applyWmaForecast_frame (perDay : List DayRow) (ctx : MonthCtx)
    (spendMtd wmaDaily : ℚ) :
    (applyWmaForecast_ perDay ctx spendMtd wmaDaily).length = perDay.length ∧
    ∀ i : Nat, i < perDay.length →
      ((applyWmaForecast_ perDay ctx spendMtd wmaDaily).getD i dayRow0).date
        = (perDay.getD i dayRow0).date ∧
      ((applyWmaForecast_ perDay ctx spendMtd wmaDaily).getD i dayRow0).cost
        = (perDay.getD i dayRow0).cost ∧
      ((applyWmaForecast_ perDay ctx spendMtd wmaDaily).getD i dayRow0).cumSpend
        = (perDay.getD i dayRow0).cumSpend ∧
      ((applyWmaForecast_ perDay ctx spendMtd wmaDaily).getD i dayRow0).targetDaily
        = (perDay.getD i dayRow0).targetDaily ∧
      ((applyWmaForecast_ perDay ctx spendMtd wmaDaily).getD i dayRow0).cumTarget
        = (perDay.getD i dayRow0).cumTarget ∧
      ((applyWmaForecast_ perDay ctx spendMtd wmaDaily).getD i dayRow0).gap
        = (perDay.getD i dayRow0).gap ∧
      ((applyWmaForecast_ perDay ctx spendMtd wmaDaily).getD i dayRow0).cumGap
        = (perDay.getD i dayRow0).cumGap ∧
      ((applyWmaForecast_ perDay ctx spendMtd wmaDaily).getD i dayRow0).runningPacePct
        = (perDay.getD i dayRow0).runningPacePct ∧
      ((applyWmaForecast_ perDay ctx spendMtd wmaDaily).getD i dayRow0).recDaily
        = (perDay.getD i dayRow0).recDaily := by
  refine ⟨applyWmaGo_length ctx spendMtd wmaDaily perDay 1, ?_⟩
  intro i hi
  rw [applyWmaForecast_getD perDay ctx spendMtd wmaDaily i hi]
  exact ⟨rfl, rfl, rfl, rfl, rfl, rfl, rfl, rfl, rfl⟩

/-- Witness for `applyWmaForecast_frame` on a one-row series. -/
theorem applyWmaForecast_frame_witness :
    (applyWmaForecast_ [{ dayRow0 with cost := 7 }] ⟨2025, 0, 3, 2⟩ 1 2).length
      = ([{ dayRow0 with cost := 7 }] : List DayRow).length ∧
    ((applyWmaForecast_ [{ dayRow0 with cost := 7 }] ⟨2025, 0, 3, 2⟩ 1 2).getD
        0 dayRow0).cost
      = (([{ dayRow0 with cost := 7 }] : List DayRow).getD 0 dayRow0).cost :=
  ⟨(applyWmaForecast_frame [{ dayRow0 with cost := 7 }] ⟨2025, 0, 3, 2⟩ 1 2).1,
   ((applyWmaForecast_frame [{ dayRow0 with cost := 7 }] ⟨2025, 0, 3, 2⟩ 1 2).2
      0 (by norm_num)).2.1⟩

/-! ### Account-level outputs -/

/-- **C4.** The once-per-month account-level outputs:
`remainingDays = max(daysInMonth - daysElapsed, 0)`;
`projectedEomSpend = spendMtd + wmaDaily * remainingDays`;
`recommendedDailySpend = max((monthlyBudget - spendMtd)/remainingDays, 0)`
when `remainingDays > 0` and `0` when `remainingDays = 0`; hence the
recommendation is never negative. -/
theorem accountOutputs_spec (monthlyBudget spendMtd wmaDaily : ℚ)
    (ctx : MonthCtx) (hw : 0 ≤ wmaDaily) :
    remainingDays ctx = max ((ctx.daysInMonth : Int) - (ctx.daysElapsed : Int)) 0 ∧
    projectedEomSpend spendMtd wmaDaily ctx
      = spendMtd + wmaDaily * ((remainingDays ctx : Int) : ℚ) ∧
    (0 < remainingDays ctx →
      recommendedDailySpend monthlyBudget spendMtd ctx
        = max ((monthlyBudget - spendMtd) / ((remainingDays ctx : Int) : ℚ)) 0) ∧
    (remainingDays ctx = 0 →
      recommendedDailySpend monthlyBudget spendMtd ctx = 0) ∧
    0 ≤ recommendedDailySpend monthlyBudget spendMtd ctx := by
  refine ⟨rfl, rfl, ?_, ?_, ?_⟩
  · intro h
    rw [recommendedDailySpend, if_pos h]
  · intro h
    rw [recommendedDailySpend, if_neg (by omega)]
  · rw [recommendedDailySpend]
    split_ifs with h
    · exact le_max_right _ _
    · exact le_refl 0

/-- Witness for `accountOutputs_spec`: budget 30, spend 10, WMA 2, a 30-day
month with 10 days elapsed. -/
theorem accountOutputs_spec_witness :
    (0 : ℚ) ≤ 2 ∧
    0 ≤ recommendedDailySpend 30 10 ⟨2025, 0, 30, 10⟩ :=
  ⟨by norm_num,
   (accountOutputs_spec 30 10 2 ⟨2025, 0, 30, 10⟩ (by norm_num)).2.2.2.2⟩

/-- **C5.** The aggregator formulas:
`targetSpendToDate = monthlyBudget * (daysElapsed / daysInMonth)`;
`paceVsTarget = spendMtd - targetSpendToDate`;
`pctBudgetSpent = spendMtd / monthlyBudget` when the budget is positive and
`0` otherwise; `paceDeltaPct = spendMtd / targetSpendToDate - 1` when the
target is positive and `0` otherwise. -/
theorem aggregator_spec (monthlyBudget spendMtd : ℚ) (ctx : MonthCtx)
    (hD : 1 ≤ ctx.daysInMonth) :
    targetSpendToDate monthlyBudget ctx
      = monthlyBudget * ((ctx.daysElapsed : ℚ) / (ctx.daysInMonth : ℚ)) ∧
    paceVsTarget monthlyBudget spendMtd ctx
      = spendMtd - targetSpendToDate monthlyBudget ctx ∧
    (0 < monthlyBudget →
      pctBudgetSpent monthlyBudget spendMtd = spendMtd / monthlyBudget) ∧
    (¬ 0 < monthlyBudget → pctBudgetSpent monthlyBudget spendMtd = 0) ∧
    (0 < targetSpendToDate monthlyBudget ctx →
      paceDeltaPct monthlyBudget spendMtd ctx
        = spendMtd / targetSpendToDate monthlyBudget ctx - 1) ∧
    (¬ 0 < targetSpendToDate monthlyBudget ctx →
      paceDeltaPct monthlyBudget spendMtd ctx = 0) := by
  refine ⟨rfl, rfl, ?_, ?_, ?_, ?_⟩
  · intro h
    rw [pctBudgetSpent, if_pos h]
  · intro h
    rw [pctBudgetSpent, if_neg h]
  · intro h
    rw [paceDeltaPct, if_pos h]
  · intro h
    rw [paceDeltaPct, if_neg h]

/-- Witness for `aggregator_spec`: budget 3000, spend 1000, day 10 of a
30-day month (`targetSpendToDate = 1000`). -/
theorem aggregator_spec_witness :
    1 ≤ (MonthCtx.mk 2025 0 30 10).daysInMonth ∧
    targetSpendToDate 3000 ⟨2025, 0, 30, 10⟩
      = 3000 * (((MonthCtx.mk 2025 0 30 10).daysElapsed : ℚ)
          / ((MonthCtx.mk 2025 0 30 10).daysInMonth : ℚ)) :=
  ⟨by norm_num, (aggregator_spec 3000 1000 ⟨2025, 0, 30, 10⟩ (by norm_num)).1⟩

/-! ### Trend label -/

theorem under_ne_onTarget (s : String) : "Under " ++ s ++ "%" ≠ "On Target" := by
  intro h
  have hd := congrArg String.data h
  rw [String.data_append, String.data_append] at hd
  have hu : ("Under ".data) = ['U', 'n', 'd', 'e', 'r', ' '] := rfl
  rw [hu] at hd
  simp at hd

theorem over_ne_onTarget (s : String) : "Over " ++ s ++ "%" ≠ "On Target" := by
  intro h
  have hd := congrArg String.data h
  rw [String.data_append, String.data_append] at hd
  have ho : ("Over ".data) = ['O', 'v', 'e', 'r', ' '] := rfl
  rw [ho] at hd
  simp at hd

/-- **C6.** `trendLabel_` returns `"On Target"` exactly when
`|paceDeltaPct| ≤ 0.05` (inclusive, symmetric); above the threshold it
returns `"Under N%"` for negative and `"Over N%"` for positive deltas,
with `N = round(|paceDeltaPct| * 100)` (JavaScript `Math.round`, i.e.
half-up, modelled by `jsRound`). -/
theorem trendLabel_spec (p : ℚ) :
    (trendLabel_ p = "On Target" ↔ |p| ≤ 1 / 20) ∧
    (1 / 20 < |p| → p < 0 →
      trendLabel_ p = "Under " ++ toString (jsRound (|p| * 100)) ++ "%") ∧
    (1 / 20 < |p| → 0 < p →
      trendLabel_ p = "Over " ++ toString (jsRound (|p| * 100)) ++ "%") := by
  simp only [trendLabel_]
  split_ifs with h1 h2
  · refine ⟨⟨fun _ => h1, fun _ => rfl⟩, ?_, ?_⟩
    · intro h _
      exact absurd h (not_lt.mpr h1)
    · intro h _
      exact absurd h (not_lt.mpr h1)
  · refine ⟨⟨fun h => absurd h (under_ne_onTarget _), fun h => absurd h h1⟩,
      fun _ _ => rfl, ?_⟩
    intro _ hp
    exact (lt_asymm h2 hp).elim
  · refine ⟨⟨fun h => absurd h (over_ne_onTarget _), fun h => absurd h h1⟩,
      ?_, fun _ _ => rfl⟩
    intro _ hneg
    exact absurd hneg h2

/-- Witness for `trendLabel_spec`: the spec's boundary pair,
`paceDeltaPct = 0.05 → "On Target"` and
`paceDeltaPct = 0.0500001 → "Over 5%"`. -/
theorem trendLabel_spec_witness :
    trendLabel_ (1 / 20) = "On Target" ∧
    (1 / 20 : ℚ) < |(500001 / 10000000 : ℚ)| ∧
    (0 : ℚ) < 500001 / 10000000 ∧
    trendLabel_ (500001 / 10000000) = "Over 5%" := by
  refine ⟨?_, by rw [lt_abs]; norm_num, by norm_num, ?_⟩
  · exact (trendLabel_spec (1 / 20)).1.mpr (by rw [abs_le]; norm_num)
  · have h := (trendLabel_spec (500001 / 10000000)).2.2
      (by rw [lt_abs]; norm_num) (by norm_num)
    rw [h]
    have h5 : jsRound (|(500001 / 10000000 : ℚ)| * 100) = 5 := by
      rw [abs_of_pos (by norm_num), jsRound]
      norm_num
    rw [h5]
    rfl

/-! ### Division guards -/

/-- **C7.** Every division in the engine is guarded: a zero budget makes
every row's `runningPacePct` and the account's `pctBudgetSpent` equal `0`;
a zero `targetSpendToDate` makes `paceDeltaPct` equal `0`; a zero
`daysInMonth` makes `targetDaily` equal `0` (and the series empty); and
whenever the WMA window resolves to no elapsed days — the only way its
weight sum can be `0` — the WMA is `0`.  All values are plain rationals,
so no ratio field is ever NaN/Infinity and no division error is raised. -/
theorem divisionGuards_spec (daily : List Obs) (monthlyBudget spendMtd : ℚ)
    (ctx : MonthCtx) (perDay : List DayRow) (daysElapsed window : Int) :
    (monthlyBudget = 0 →
      ∀ r ∈ buildPerDayRows_ daily monthlyBudget ctx, r.runningPacePct = 0) ∧
    (monthlyBudget = 0 → pctBudgetSpent monthlyBudget spendMtd = 0) ∧
    (targetSpendToDate monthlyBudget ctx = 0 →
      paceDeltaPct monthlyBudget spendMtd ctx = 0) ∧
    (ctx.daysInMonth = 0 →
      targetDailyCalc monthlyBudget ctx.daysInMonth = 0 ∧
      buildPerDayRows_ daily monthlyBudget ctx = []) ∧
    (min window (max daysElapsed 0) ≤ 0 →
      computeWmaDaily_ perDay daysElapsed window = some 0) := by
  refine ⟨?_, ?_, ?_, ?_, ?_⟩
  · intro hB r hr
    subst hB
    rw [buildPerDayRows_eq] at hr
    obtain ⟨i, hi, rfl⟩ := List.mem_map.mp hr
    show (if (0 : ℚ) > 0 then sumCosts daily 1 (i + 1) / 0 else 0) = 0
    rw [if_neg (lt_irrefl 0)]
  · intro hB
    subst hB
    rw [pctBudgetSpent, if_neg (lt_irrefl 0)]
  · intro ht
    rw [paceDeltaPct, if_neg (by rw [ht]; exact lt_irrefl 0)]
  · intro hD
    refine ⟨?_, ?_⟩
    · rw [targetDailyCalc, if_neg (by omega)]
    · rw [buildPerDayRows_eq, hD]
      rfl
  · intro h
    rw [computeWmaDaily_, if_pos h]

/-- Witness for `divisionGuards_spec`, exercising each guard at concrete
degenerate inputs. -/
theorem divisionGuards_spec_witness :
    (∀ r ∈ buildPerDayRows_ [⟨⟨2025, 0, 1⟩, 5⟩] 0 ⟨2025, 0, 2, 1⟩,
      r.runningPacePct = 0) ∧
    pctBudgetSpent 0 7 = 0 ∧
    paceDeltaPct 0 7 ⟨2025, 0, 2, 1⟩ = 0 ∧
    (targetDailyCalc 3 (MonthCtx.mk 2025 0 0 0).daysInMonth = 0 ∧
      buildPerDayRows_ [] 3 ⟨2025, 0, 0, 0⟩ = []) ∧
    computeWmaDaily_ [] 0 7 = some 0 :=
  ⟨(divisionGuards_spec [⟨⟨2025, 0, 1⟩, 5⟩] 0 7 ⟨2025, 0, 2, 1⟩ [] 0 7).1 rfl,
   (divisionGuards_spec [] 0 7 ⟨2025, 0, 2, 1⟩ [] 0 7).2.1 rfl,
   (divisionGuards_spec [] 0 7 ⟨2025, 0, 2, 1⟩ [] 0 7).2.2.1
     (by rw [targetSpendToDate]; norm_num),
   (divisionGuards_spec [] 3 7 ⟨2025, 0, 0, 0⟩ [] 0 7).2.2.2.1 rfl,
   (divisionGuards_spec [] 3 7 ⟨2025, 0, 0, 0⟩ [] 0 7).2.2.2.2 (by norm_num)⟩

/-! ### `monthMeta_` -/

theorem daysInGregMonth_bounds (y m0 : Int) :
    28 ≤ daysInGregMonth y m0 ∧ daysInGregMonth y m0 ≤ 31 := by
  rw [daysInGregMonth]
  split_ifs <;> omega

theorem monthMeta_endDay (y m0 : Int) (hm0 : 0 ≤ m0) (hm1 : m0 ≤ 11) :
    (minusOneDay (if m0 = 11 then (⟨y + 1, 0, 1⟩ : JsDate)
      else ⟨y, m0 + 1, 1⟩)).day = daysInGregMonth y m0 := by
  by_cases hm : m0 = 11
  · subst hm
    rw [if_pos rfl, minusOneDay, if_neg (by omega), if_pos rfl]
    show daysInGregMonth (y + 1 - 1) 11 = daysInGregMonth y 11
    have hy : y + 1 - 1 = y := by ring
    rw [hy]
  · rw [if_neg hm, minusOneDay, if_neg (by omega), if_neg (by omega)]
    show daysInGregMonth y (m0 + 1 - 1) = daysInGregMonth y m0
    have hmm : m0 + 1 - 1 = m0 := by ring
    rw [hmm]

theorem monthMeta_dim (y m0 day : Int) (hm0 : 0 ≤ m0) (hm1 : m0 ≤ 11) :
    ((monthMeta_ y m0 day).daysInMonth : Int) = daysInGregMonth y m0 := by
  have hpos : 0 < daysInGregMonth y m0 := by
    have := daysInGregMonth_bounds y m0
    omega
  show ((minusOneDay (if m0 = 11 then (⟨y + 1, 0, 1⟩ : JsDate)
      else ⟨y, m0 + 1, 1⟩)).day.toNat : Int) = daysInGregMonth y m0
  rw [monthMeta_endDay y m0 hm0 hm1]
  exact Int.toNat_of_nonneg (le_of_lt hpos)

/-- **C8.** For every valid calendar reference date, `monthMeta_` returns
the true Gregorian length of the month (between 28 and 31, leap years
included) as `daysInMonth`, and `daysElapsed` is the reference
day-of-month clamped to `daysInMonth`, so `1 ≤ daysElapsed ≤ daysInMonth`
holds and the function is total. -/
theorem monthMeta_spec (y m0 day : Int) (hm0 : 0 ≤ m0) (hm1 : m0 ≤ 11)
    (hd1 : 1 ≤ day) (hd2 : day ≤ daysInGregMonth y m0) :
    ((monthMeta_ y m0 day).daysInMonth : Int) = daysInGregMonth y m0 ∧
    28 ≤ (monthMeta_ y m0 day).daysInMonth ∧
    (monthMeta_ y m0 day).daysInMonth ≤ 31 ∧
    ((monthMeta_ y m0 day).daysElapsed : Int)
      = min day ((monthMeta_ y m0 day).daysInMonth : Int) ∧
    ((monthMeta_ y m0 day).daysElapsed : Int) = day ∧
    1 ≤ (monthMeta_ y m0 day).daysElapsed ∧
    (monthMeta_ y m0 day).daysElapsed ≤ (monthMeta_ y m0 day).daysInMonth := by
  have hdim := monthMeta_dim y m0 day hm0 hm1
  have hbounds := daysInGregMonth_bounds y m0
  have hde : ((monthMeta_ y m0 day).daysElapsed : Int)
      = min day ((monthMeta_ y m0 day).daysInMonth : Int) := by
    show ((min day (minusOneDay (if m0 = 11 then (⟨y + 1, 0, 1⟩ : JsDate)
      else ⟨y, m0 + 1, 1⟩)).day).toNat : Int) = _
    rw [monthMeta_endDay y m0 hm0 hm1]
    have hmin : min day (daysInGregMonth y m0) = day := min_eq_left hd2
    rw [hmin, Int.toNat_of_nonneg (by omega)]
    have hmin2 : min day ((monthMeta_ y m0 day).daysInMonth : Int) = day := by
      apply min_eq_left
      omega
    rw [hmin2]
  refine ⟨hdim, by omega, by omega, hde, ?_, ?_, ?_⟩
  · rw [hde]
    apply min_eq_left
    omega
  · have := hde
    rw [min_eq_left (by omega : day ≤ ((monthMeta_ y m0 day).daysInMonth : Int))] at this
    omega
  · have := hde
    rw [min_eq_left (by omega : day ≤ ((monthMeta_ y m0 day).daysInMonth : Int))] at this
    omega

/-- Witness for `monthMeta_spec`: 29 February 2024 (a leap year). -/
theorem monthMeta_spec_witness :
    (0 : Int) ≤ 1 ∧ (1 : Int) ≤ 11 ∧ (1 : Int) ≤ 29 ∧
    (29 : Int) ≤ daysInGregMonth 2024 1 ∧
    ((monthMeta_ 2024 1 29).daysInMonth : Int) = daysInGregMonth 2024 1 :=
  ⟨by norm_num, by norm_num, by norm_num, by decide,
   (monthMeta_spec 2024 1 29 (by norm_num) (by norm_num) (by norm_num)
     (by decide)).1⟩

/-! ### Out-of-range observations -/

theorem dayCost_cons (o : Obs) (l : List Obs) (d : Int) :
    dayCost (o :: l) d
      = (if o.date.day == d then o.cost else 0) + dayCost l d := by
  by_cases h : o.date.day == d
  · simp [dayCost_eq_sum, List.filter_cons, h]
  · simp [dayCost_eq_sum, List.filter_cons, h]

theorem dayCost_append (l₁ l₂ : List Obs) (d : Int) :
    dayCost (l₁ ++ l₂) d = dayCost l₁ d + dayCost l₂ d := by
  rw [dayCost_eq_sum, dayCost_eq_sum, dayCost_eq_sum, List.filter_append,
    List.map_append, List.sum_append]

theorem sumCosts_congr (dailyA dailyB : List Obs) :
    ∀ (k d : Nat),
      (∀ j : Nat, d ≤ j → j < d + k → dayCost dailyA (j : Int) = dayCost dailyB (j : Int)) →
      sumCosts dailyA d k = sumCosts dailyB d k := by
  intro k
  induction k with
  | zero => intro d h; rfl
  | succ k ih =>
    intro d h
    show dayCost dailyA (d : Int) + sumCosts dailyA (d + 1) k
      = dayCost dailyB (d : Int) + sumCosts dailyB (d + 1) k
    rw [h d (le_refl d) (by omega), ih (d + 1) (fun j h1 h2 => h j (by omega) (by omega))]

theorem buildPerDayRows_congr (dailyA dailyB : List Obs) (monthlyBudget : ℚ)
    (ctx : MonthCtx)
    (h : ∀ j : Nat, 1 ≤ j → j ≤ ctx.daysInMonth →
      dayCost dailyA (j : Int) = dayCost dailyB (j : Int)) :
    buildPerDayRows_ dailyA monthlyBudget ctx
      = buildPerDayRows_ dailyB monthlyBudget ctx := by
  rw [buildPerDayRows_eq, buildPerDayRows_eq]
  apply List.map_congr_left
  intro i hi
  have hiD : i < ctx.daysInMonth := List.mem_range.mp hi
  have hc : dayCost dailyA ((1 + i : Nat) : Int) = dayCost dailyB ((1 + i : Nat) : Int) :=
    h (1 + i) (by omega) (by omega)
  have hs : sumCosts dailyA 1 (i + 1) = sumCosts dailyB 1 (i + 1) :=
    sumCosts_congr dailyA dailyB (i + 1) 1 (fun j h1 h2 => h j h1 (by omega))
  rw [mkRow, mkRow, hc, hs]

/-- **C9 (counterexample).** The claim fails as stated: the source keys
observations by `date.getDate()` alone, so an observation dated
15 May 2025 — a date outside days 1..30 of the current month
(September 2025) — is *not* ignored: it is merged into row 15 and the
output differs from the output without it. -/
theorem outOfMonthObs_counterexample :
    (⟨⟨2025, 4, 15⟩, (5 : ℚ)⟩ : Obs).date.month ≠ (⟨2025, 8, 30, 20⟩ : MonthCtx).m0 ∧
    buildPerDayRows_ [⟨⟨2025, 4, 15⟩, 5⟩] 1 ⟨2025, 8, 30, 20⟩
      ≠ buildPerDayRows_ [] 1 ⟨2025, 8, 30, 20⟩ := by
  refine ⟨by decide, ?_⟩
  intro h
  have h15 : ((buildPerDayRows_ [⟨⟨2025, 4, 15⟩, 5⟩] 1 ⟨2025, 8, 30, 20⟩).getD
        14 dayRow0).cost
      = ((buildPerDayRows_ [] 1 ⟨2025, 8, 30, 20⟩).getD 14 dayRow0).cost := by
    rw [h]
  rw [buildPerDayRows_getD [⟨⟨2025, 4, 15⟩, 5⟩] 1 ⟨2025, 8, 30, 20⟩ 14 (by norm_num),
    buildPerDayRows_getD [] 1 ⟨2025, 8, 30, 20⟩ 14 (by norm_num)] at h15
  have h5 : (5 : ℚ) = 0 := by
    have hl : (mkRow [⟨⟨2025, 4, 15⟩, 5⟩] 1 ⟨2025, 8, 30, 20⟩
        (targetDailyCalc 1 (MonthCtx.mk 2025 8 30 20).daysInMonth) (1 + 14)
        (sumCosts [⟨⟨2025, 4, 15⟩, 5⟩] 1 (14 + 1))).cost = 5 := by
      show dayCost [⟨⟨2025, 4, 15⟩, 5⟩] ((15 : Nat) : Int) = 5
      rw [dayCost_cons, if_pos (by decide)]
      show (5 : ℚ) + dayCost [] 15 = 5
      rw [dayCost_eq_sum]
      norm_num
    have hr : (mkRow [] 1 ⟨2025, 8, 30, 20⟩
        (targetDailyCalc 1 (MonthCtx.mk 2025 8 30 20).daysInMonth) (1 + 14)
        (sumCosts [] 1 (14 + 1))).cost = 0 := by
      show dayCost [] ((15 : Nat) : Int) = 0
      rw [dayCost_eq_sum]
      norm_num
    rw [hl, hr] at h15
    exact h15
  norm_num at h5

/-- **C9 (amended).** An observation whose *day-of-month* falls outside
`1..daysInMonth` is ignored without error: the output with it equals the
output without it.  (The month and year of the observation's date are not
consulted — `buildPerDayRows_` groups by day-of-month alone, which is what
the counterexample exhibits.) -/
theorem outOfRangeObs_ignored (daily₁ daily₂ : List Obs) (obs : Obs)
    (monthlyBudget : ℚ) (ctx : MonthCtx)
    (h : obs.date.day < 1 ∨ (ctx.daysInMonth : Int) < obs.date.day) :
    buildPerDayRows_ (daily₁ ++ obs :: daily₂) monthlyBudget ctx
      = buildPerDayRows_ (daily₁ ++ daily₂) monthlyBudget ctx := by
  apply buildPerDayRows_congr
  intro j hj1 hj2
  rw [dayCost_append, dayCost_append, dayCost_cons]
  have hne : (obs.date.day == (j : Int)) = false := by
    apply beq_false_of_ne
    intro hEq
    rcases h with hlt | hgt
    · omega
    · omega
  rw [hne]
  simp

/-- Witness for `outOfRangeObs_ignored`: an observation with day-of-month
31 in a 30-day month is dropped. -/
theorem outOfRangeObs_ignored_witness :
    ((⟨2025, 8, 30, 20⟩ : MonthCtx).daysInMonth : Int)
        < (⟨⟨2025, 9, 31⟩, (5 : ℚ)⟩ : Obs).date.day ∧
    buildPerDayRows_ [⟨⟨2025, 9, 31⟩, 5⟩] 1 ⟨2025, 8, 30, 20⟩
      = buildPerDayRows_ [] 1 ⟨2025, 8, 30, 20⟩ :=
  ⟨by decide,
   outOfRangeObs_ignored [] [] ⟨⟨2025, 9, 31⟩, 5⟩ 1 ⟨2025, 8, 30, 20⟩
     (Or.inr (by decide))⟩

end BudgetPacer
